import Mathlib

set_option linter.unusedVariables false

/-!
Verification of the `phenotypes` library: a validated fraction value type
(`Fraction<T>` in `src/model.rs`), the `Observable` / `ObservableFeatures`
capability traits (`src/observation.rs`), and the example implementation
`SimplePhenotypicFeature` (`src/simple.rs`).

Machine integers (`u32`, the default count type) are modelled as `Nat`
with explicit wrapping `% 2^32` where overflow matters.
-/

/-- Embeds `Fraction<T>` from `src/model.rs`: a pair of counts `n` (numerator)
and `m` (denominator).  The Rust accessor methods `n()` and `m()` return
clones of the fields and are modelled by the structure projections. -/
structure Fraction (T : Type) where
  n : T
  m : T
  deriving DecidableEq

/-- Embeds `impl TryFrom<(T, T)> for Fraction<T>` from `src/model.rs`:
succeeds iff `numerator <= denominator`, otherwise returns the error
string used by the source. -/
def Fraction.tryFrom {T : Type} [LE T] [∀ x y : T, Decidable (x ≤ y)]
    (value : T × T) : Except String (Fraction T) :=
  if value.1 ≤ value.2 then
    Except.ok ⟨value.1, value.2⟩
  else
    Except.error "Numerator must be less than or equal to denominator!"

/-- Embeds `impl Add for Fraction<T>` from `src/model.rs`: componentwise
sum using the count type's addition, with no re-validation. -/
def Fraction.add {T : Type} [Add T] (a rhs : Fraction T) : Fraction T :=
  ⟨a.n + rhs.n, a.m + rhs.m⟩

instance {T : Type} [Add T] : Add (Fraction T) :=
  ⟨Fraction.add⟩

/-- Addition of `u32` values: Rust release-mode `+` wraps on overflow,
modelled as arithmetic modulo `2^32`. -/
def u32add (a b : Nat) : Nat :=
  (a + b) % 4294967296

/-- The `Add` implementation of `src/model.rs` at the default `u32`
count type, with overflow modelled as wrapping modulo `2^32`. -/
def Fraction.addU32 (a b : Fraction Nat) : Fraction Nat :=
  ⟨u32add a.n b.n, u32add a.m b.m⟩

/-- Embeds the `#[derive(PartialEq)]` equality of `Fraction` from
`src/model.rs`: fieldwise comparison of numerator and denominator. -/
def Fraction.eqb {T : Type} [BEq T] (a b : Fraction T) : Bool :=
  a.n == b.n && a.m == b.m

/-- Embeds the `Observable` trait of `src/observation.rs` as a dictionary:
`is_present` is the required method; `is_excluded` has the default body
`!self.is_present()`, recorded here as a default field value.  An
implementation that does not override `is_excluded` is one whose
`is_excluded` field equals the default. -/
structure Observable (A : Type) where
  is_present : A → Bool
  is_excluded : A → Bool := fun a => ! is_present a

/-- An `Observable` implementation that provides only `is_present` and
keeps the default `is_excluded` body from the trait. -/
def Observable.ofPresent {A : Type} (p : A → Bool) : Observable A :=
  { is_present := p }

/-- Embeds `present_features` of the `ObservableFeatures` trait.  The three
conformances in `src/observation.rs` (`&[T]`, `[T; N]`, `Vec<T>`) all have
the identical body `self.iter().filter(|&t| t.is_present())`; a `List A`
models the backing collection in iteration order for each of them. -/
def present_features {A : Type} (O : Observable A) (xs : List A) : List A :=
  xs.filter (fun t => O.is_present t)

/-- Embeds the default method `present_feature_count`, which counts the
elements of the `present_features` iterator. -/
def present_feature_count {A : Type} (O : Observable A) (xs : List A) : Nat :=
  (present_features O xs).length

/-- Embeds `excluded_features`: the body shared by all three conformances
is `self.iter().filter(|&t| t.is_excluded())`. -/
def excluded_features {A : Type} (O : Observable A) (xs : List A) : List A :=
  xs.filter (fun t => O.is_excluded t)

/-- Embeds the default method `excluded_feature_count`. -/
def excluded_feature_count {A : Type} (O : Observable A) (xs : List A) : Nat :=
  (excluded_features O xs).length

/-- Embeds `SimplePhenotypicFeature` from `src/simple.rs`.  The `TermId`
identifier type comes from the external `ontolius` crate and is consumed
opaquely, so it is a type parameter `I`.  The fraction uses the default
`u32` count type, modelled by `Nat`. -/
structure SimplePhenotypicFeature (I : Type) where
  identifier : I
  fraction : Fraction Nat

/-- Embeds `SimplePhenotypicFeature::new`. -/
def SimplePhenotypicFeature.new {I : Type} (identifier : I)
    (fraction : Fraction Nat) : SimplePhenotypicFeature I :=
  ⟨identifier, fraction⟩

/-- Embeds `impl Observable for SimplePhenotypicFeature`: `is_present` is
`self.fraction.n() > 0` and `is_excluded` keeps the trait default. -/
def SimplePhenotypicFeature.observable (I : Type) :
    Observable (SimplePhenotypicFeature I) :=
  Observable.ofPresent (fun s => decide (0 < s.fraction.n))

/-- C1: for every pair `(a, b)` of the count type with `a ≤ b` (in
particular all `u32` values `0 ≤ a ≤ b`), `Fraction::try_from((a, b))`
succeeds, and the resulting fraction has numerator `a` and
denominator `b`. -/
theorem tryFrom_ok_of_le {T : Type} [LE T] [∀ x y : T, Decidable (x ≤ y)]
    (a b : T) (h : a ≤ b) :
    Fraction.tryFrom (a, b) = Except.ok ⟨a, b⟩ := by
  simp [Fraction.tryFrom, h]

/-- Witness for C1 at the concrete input `(1, 10)` over `Nat`. -/
theorem tryFrom_ok_of_le_witness :
    Fraction.tryFrom ((1 : Nat), 10) = Except.ok ⟨1, 10⟩ :=
  tryFrom_ok_of_le 1 10 (by decide)

/-- Counterexample for C2: at the concrete input `(5, 3)` the conversion
fails, but the error it returns is not the message the claim quotes
("numerator must be less than or equal to denominator"); the source uses
a capitalised message ending in an exclamation mark. -/
theorem tryFrom_error_message_cex :
    (∃ e, Fraction.tryFrom ((5 : Nat), 3) = Except.error e) ∧
    Fraction.tryFrom ((5 : Nat), 3) ≠
      Except.error "numerator must be less than or equal to denominator" := by
  constructor
  · exact ⟨_, rfl⟩
  · intro h
    simp [Fraction.tryFrom] at h

/-- C2 (amended): for every pair `(a, b)` with `a > b`,
`Fraction::try_from((a, b))` fails, producing no `Fraction`, and the error
carries the fixed message
"Numerator must be less than or equal to denominator!". -/
theorem tryFrom_error_of_gt {T : Type} [Preorder T]
    [∀ x y : T, Decidable (x ≤ y)] (a b : T) (h : b < a) :
    Fraction.tryFrom (a, b) =
      Except.error "Numerator must be less than or equal to denominator!" := by
  have h2 : ¬ a ≤ b := not_le_of_lt h
  simp [Fraction.tryFrom, h2]

/-- Witness for C2 (amended) at the concrete input `(5, 3)` over `Nat`. -/
theorem tryFrom_error_of_gt_witness :
    Fraction.tryFrom ((5 : Nat), 3) =
      Except.error "Numerator must be less than or equal to denominator!" :=
  tryFrom_error_of_gt 5 3 (by decide)

/-- C3: for any two well-formed fractions (obtained from the validating
conversion as `(n1, m1)` and `(n2, m2)`), the addition operator is total
and yields exactly the fraction `(n1 + n2, m1 + m2)` under the count
type's addition. -/
theorem add_of_tryFrom {T : Type} [LE T] [∀ x y : T, Decidable (x ≤ y)]
    [Add T] (n1 m1 n2 m2 : T) (f1 f2 : Fraction T)
    (h1 : Fraction.tryFrom (n1, m1) = Except.ok f1)
    (h2 : Fraction.tryFrom (n2, m2) = Except.ok f2) :
    f1 + f2 = ⟨n1 + n2, m1 + m2⟩ := by
  simp only [Fraction.tryFrom] at h1 h2
  split at h1
  · split at h2
    · cases h1
      cases h2
      rfl
    · cases h2
  · cases h1

/-- Witness for C3: combining `(1, 2)` with `(3, 3)` over `Nat` yields
`(4, 5)`, matching the example in the source documentation. -/
theorem add_of_tryFrom_witness :
    (⟨1, 2⟩ : Fraction Nat) + ⟨3, 3⟩ = ⟨4, 5⟩ :=
  add_of_tryFrom 1 2 3 3 ⟨1, 2⟩ ⟨3, 3⟩ rfl rfl

/-- Counterexample for C4: under `u32` wrapping addition (modulo `2^32`),
the valid fractions `(0, 4294967295)` and `(4294967295, 4294967295)` sum
to `(4294967295, 4294967294)`, which violates `numerator ≤ denominator`. -/
theorem addU32_validity_cex :
    ((0 : Nat) ≤ 4294967295 ∧ (4294967295 : Nat) ≤ 4294967295) ∧
    ¬ ((Fraction.addU32 ⟨0, 4294967295⟩ ⟨4294967295, 4294967295⟩).n ≤
       (Fraction.addU32 ⟨0, 4294967295⟩ ⟨4294967295, 4294967295⟩).m) := by
  constructor
  · exact ⟨Nat.zero_le _, Nat.le_refl _⟩
  · decide

/-- C4 (amended): for the default `u32` instantiation, adding two valid
fractions yields a valid fraction whenever the denominator sum does not
overflow (`m1 + m2 < 2^32`); without that bound wrapping can break the
invariant. -/
theorem addU32_preserves_valid (a b : Fraction Nat)
    (ha : a.n ≤ a.m) (hb : b.n ≤ b.m) (hm : a.m + b.m < 4294967296) :
    (Fraction.addU32 a b).n ≤ (Fraction.addU32 a b).m := by
  have hn : a.n + b.n < 4294967296 :=
    lt_of_le_of_lt (Nat.add_le_add ha hb) hm
  simp only [Fraction.addU32, u32add, Nat.mod_eq_of_lt hn, Nat.mod_eq_of_lt hm]
  exact Nat.add_le_add ha hb

/-- Witness for C4 (amended): `(1, 2) + (3, 3) = (4, 5)` stays valid. -/
theorem addU32_preserves_valid_witness :
    (Fraction.addU32 ⟨1, 2⟩ ⟨3, 3⟩).n ≤ (Fraction.addU32 ⟨1, 2⟩ ⟨3, 3⟩).m :=
  addU32_preserves_valid ⟨1, 2⟩ ⟨3, 3⟩ (by decide) (by decide) (by decide)

/-- C5: two fractions are equal under the derived fieldwise equality iff
their numerators and denominators agree; this coincides with structural
equality of the values (independent of construction), and the comparison
is reflexive and symmetric. -/
theorem fraction_eq_structural (a b : Fraction Nat) :
    (Fraction.eqb a b = true ↔ a.n = b.n ∧ a.m = b.m) ∧
    (Fraction.eqb a b = true ↔ a = b) ∧
    Fraction.eqb a a = true ∧
    Fraction.eqb a b = Fraction.eqb b a := by
  obtain ⟨an, am⟩ := a
  obtain ⟨bn, bm⟩ := b
  refine ⟨?_, ?_, ?_, ?_⟩
  · simp [Fraction.eqb]
  · simp [Fraction.eqb, Fraction.mk.injEq]
  · simp [Fraction.eqb]
  · apply Bool.eq_iff_iff.mpr
    simp only [Fraction.eqb, Bool.and_eq_true, beq_iff_eq]
    exact ⟨fun hh => ⟨hh.1.symm, hh.2.symm⟩, fun hh => ⟨hh.1.symm, hh.2.symm⟩⟩

/-- C6: for any `Observable` implementation that keeps the default
`is_excluded` body (the negation of `is_present`), `is_present` and
`is_excluded` return opposite booleans on every instance. -/
theorem is_present_ne_is_excluded {A : Type} (O : Observable A)
    (h : O.is_excluded = fun a => ! O.is_present a) (a : A) :
    O.is_present a ≠ O.is_excluded a := by
  rw [h]
  cases hp : O.is_present a <;> simp [hp]

/-- Witness for C6 at the `SimplePhenotypicFeature` conformance, which
keeps the default `is_excluded`, on a concrete feature `((), (1, 2))`. -/
theorem is_present_ne_is_excluded_witness :
    (SimplePhenotypicFeature.observable Unit).is_present ⟨(), ⟨1, 2⟩⟩ ≠
      (SimplePhenotypicFeature.observable Unit).is_excluded ⟨(), ⟨1, 2⟩⟩ :=
  is_present_ne_is_excluded (SimplePhenotypicFeature.observable Unit) rfl
    ⟨(), ⟨1, 2⟩⟩

/-- C7: for any collection of elements whose `Observable` conformance
keeps the complementarity rule, `present_feature_count` plus
`excluded_feature_count` equals the number of elements. -/
theorem count_partition {A : Type} (O : Observable A)
    (h : ∀ a, O.is_excluded a = ! O.is_present a) (xs : List A) :
    present_feature_count O xs + excluded_feature_count O xs = xs.length := by
  simp only [present_feature_count, excluded_feature_count, present_features,
    excluded_features]
  induction xs with
  | nil => rfl
  | cons x xs ih =>
    simp only [List.filter_cons, List.length_cons, h x]
    cases hp : O.is_present x <;> simp <;> omega

/-- Witness for C7: a two-element collection with one present and one
excluded feature has counts summing to its length. -/
theorem count_partition_witness :
    present_feature_count (Observable.ofPresent (fun b : Bool => b))
        [true, false] +
      excluded_feature_count (Observable.ofPresent (fun b : Bool => b))
        [true, false] = 2 :=
  count_partition (Observable.ofPresent (fun b : Bool => b)) (fun _ => rfl)
    [true, false]

/-- C8: `present_features` yields exactly the elements satisfying
`is_present` and `excluded_features` exactly those satisfying
`is_excluded`, each as an order-preserving sub-sequence of the backing
collection; and, under the default `is_excluded`, the two views together
enumerate every element exactly once (their concatenation is a
permutation of the collection). -/
theorem features_partition {A : Type} (O : Observable A)
    (h : ∀ a, O.is_excluded a = ! O.is_present a) (xs : List A) :
    List.Sublist (present_features O xs) xs ∧
    List.Sublist (excluded_features O xs) xs ∧
    (∀ x, x ∈ present_features O xs ↔ x ∈ xs ∧ O.is_present x = true) ∧
    (∀ x, x ∈ excluded_features O xs ↔ x ∈ xs ∧ O.is_excluded x = true) ∧
    List.Perm (present_features O xs ++ excluded_features O xs) xs := by
  refine ⟨List.filter_sublist _, List.filter_sublist _, ?_, ?_, ?_⟩
  · intro x
    simp [present_features, List.mem_filter]
  · intro x
    simp [excluded_features, List.mem_filter]
  · have hfe : excluded_features O xs =
        xs.filter (fun t => ! O.is_present t) := by
      exact List.filter_congr (fun a _ => h a)
    rw [hfe]
    exact List.filter_append_perm _ xs

/-- Witness for C8 on the two-element collection `[true, false]` with the
identity presence test and the default exclusion. -/
theorem features_partition_witness :
    List.Sublist
      (present_features (Observable.ofPresent (fun b : Bool => b))
        [true, false]) [true, false] ∧
    List.Sublist
      (excluded_features (Observable.ofPresent (fun b : Bool => b))
        [true, false]) [true, false] ∧
    (∀ x, x ∈ present_features (Observable.ofPresent (fun b : Bool => b))
        [true, false] ↔ x ∈ [true, false] ∧
        (Observable.ofPresent (fun b : Bool => b)).is_present x = true) ∧
    (∀ x, x ∈ excluded_features (Observable.ofPresent (fun b : Bool => b))
        [true, false] ↔ x ∈ [true, false] ∧
        (Observable.ofPresent (fun b : Bool => b)).is_excluded x = true) ∧
    List.Perm
      (present_features (Observable.ofPresent (fun b : Bool => b))
          [true, false] ++
        excluded_features (Observable.ofPresent (fun b : Bool => b))
          [true, false]) [true, false] :=
  features_partition (Observable.ofPresent (fun b : Bool => b))
    (fun _ => rfl) [true, false]

/-- C9: a `SimplePhenotypicFeature` built from any identifier and a valid
fraction is present iff the fraction's numerator is strictly positive;
with numerator `0` it is not present and is excluded. -/
theorem sphf_present_iff {I : Type} (i : I) (fr : Fraction Nat)
    (h : fr.n ≤ fr.m) :
    ((SimplePhenotypicFeature.observable I).is_present
        (SimplePhenotypicFeature.new i fr) = true ↔ 0 < fr.n) ∧
    (fr.n = 0 →
      (SimplePhenotypicFeature.observable I).is_present
          (SimplePhenotypicFeature.new i fr) = false ∧
      (SimplePhenotypicFeature.observable I).is_excluded
          (SimplePhenotypicFeature.new i fr) = true) := by
  constructor
  · simp [SimplePhenotypicFeature.observable, Observable.ofPresent,
      SimplePhenotypicFeature.new]
  · intro h0
    simp [SimplePhenotypicFeature.observable, Observable.ofPresent,
      SimplePhenotypicFeature.new, h0]

/-- Witness for C9 at identifier `()` and the valid fraction `(0, 3)`. -/
theorem sphf_present_iff_witness :
    ((SimplePhenotypicFeature.observable Unit).is_present
        (SimplePhenotypicFeature.new () ⟨0, 3⟩) = true ↔
      0 < (⟨0, 3⟩ : Fraction Nat).n) ∧
    ((⟨0, 3⟩ : Fraction Nat).n = 0 →
      (SimplePhenotypicFeature.observable Unit).is_present
          (SimplePhenotypicFeature.new () ⟨0, 3⟩) = false ∧
      (SimplePhenotypicFeature.observable Unit).is_excluded
          (SimplePhenotypicFeature.new () ⟨0, 3⟩) = true) :=
  sphf_present_iff () ⟨0, 3⟩ (by decide)

/-- C10: for the default `u32` instantiation (wrapping addition), fraction
addition is commutative, `Fraction::try_from((0, 0))` succeeds with the
fraction `(0, 0)`, and that fraction is a right identity for addition on
`u32`-valued fractions. -/
theorem addU32_comm_and_identity (a b : Fraction Nat)
    (ha1 : a.n < 4294967296) (ha2 : a.m < 4294967296) :
    Fraction.addU32 a b = Fraction.addU32 b a ∧
    Fraction.tryFrom ((0 : Nat), 0) = Except.ok ⟨0, 0⟩ ∧
    Fraction.addU32 a ⟨0, 0⟩ = a := by
  obtain ⟨an, am⟩ := a
  refine ⟨?_, rfl, ?_⟩
  · simp [Fraction.addU32, u32add, Nat.add_comm]
  · simp only [Fraction.addU32, u32add, Nat.add_zero]
    simp_all [Nat.mod_eq_of_lt]

/-- Witness for C10 at `a = (1, 2)` and `b = (3, 3)`. -/
theorem addU32_comm_and_identity_witness :
    Fraction.addU32 ⟨1, 2⟩ ⟨3, 3⟩ = Fraction.addU32 ⟨3, 3⟩ ⟨1, 2⟩ ∧
    Fraction.tryFrom ((0 : Nat), 0) = Except.ok ⟨0, 0⟩ ∧
    Fraction.addU32 ⟨1, 2⟩ ⟨0, 0⟩ = ⟨1, 2⟩ :=
  addU32_comm_and_identity ⟨1, 2⟩ ⟨3, 3⟩ (by decide) (by decide)
